import Mathlib

/-!
Verification of the Gabriel graph builder in `spatial.py`.

This file gives a shallow embedding of the computational core of
`src/spatial.py` (class `GraphTools`) and proves the specified properties
of the Gabriel graph construction.

The geometry is parametric in a linear ordered commutative ring `α`
standing for the coordinate field: the source only subtracts, squares,
adds and compares coordinates, so no division is needed.  Concrete
instances use `ℤ` (and `ℤ√3` for an equilateral triangle, which has no
rational realisation).

Point indices are natural numbers; a simplex is a triple of indices as
produced by the triangulation provider; a frozenset edge is a
`Finset ℕ`.
-/

namespace Spatial

variable {α : Type} [LinearOrderedCommRing α]

/-- A 2-D point: an ordered pair of coordinates. -/
abbrev Pt (α : Type) := α × α

/-- A simplex of the 2-D triangulation: a triple of point indices
(one row of `tri.simplices`). -/
abbrev Simplex := ℕ × ℕ × ℕ

/-- Squared Euclidean distance, `np.sum(np.power(x-y, 2))` for 2-D points. -/
def sqDist (x y : Pt α) : α :=
  (x.1 - y.1) ^ 2 + (x.2 - y.2) ^ 2

/-- Predicate `GraphTools._inside_midpoint_circle` (spatial.py lines 69-74):
`diam_sq = np.sum(np.power(x-y, 2))`;
returns `diam_sq > np.sum(np.power(x-point,2)) + np.sum(np.power(y-point,2))`. -/
def inside_midpoint_circle (x y point : Pt α) : Bool :=
  decide (sqDist x y > sqDist x point + sqDist y point)

/-- Array indexing `points[i]`.  Under the input contract every index used
by a simplex is in range, so the default value is never consulted there. -/
def getPoint (points : List (Pt α)) (i : ℕ) : Pt α :=
  points.getD i (0, 0)

/-- The value `frozenset(edge)` for a 2-tuple of indices. -/
def fs (e : ℕ × ℕ) : Finset ℕ :=
  {e.1, e.2}

/-- The list `combinations(simplex, 2)`: the three index pairs of a simplex, in the
order `itertools.combinations` yields them. -/
def simplexEdges (s : Simplex) : List (ℕ × ℕ) :=
  [(s.1, s.2.1), (s.1, s.2.2), (s.2.1, s.2.2)]

/-- The vertex set `set(simplex)` of a simplex. -/
def simplexSet (s : Simplex) : Finset ℕ :=
  {s.1, s.2.1, s.2.2}

/-- The difference `set(simplex).difference(set(edge))` (spatial.py line 90): the opposite
vertices of the simplex relative to the edge, as the list of elements the
`for neighbor in` loop iterates over (a Python set holds each element once;
its iteration order is unspecified, so any enumeration of the difference is
a faithful model). -/
def oppositeVertices (simplex : Simplex) (edge : ℕ × ℕ) : List ℕ :=
  ([simplex.1, simplex.2.1, simplex.2.2].dedup).filter fun v => decide (v ∉ fs edge)

/-- The membership test inside the guard `if edge not in removed_edges:`
(spatial.py line 87).  In the source, `edge` is a tuple of indices while
`removed_edges` holds `frozenset` values; Python equality between a tuple
and a frozenset is always `False` (different types, no cross-type
`__eq__`), so the element-wise comparison the `in` operator performs never
succeeds.  We embed that elementwise comparison directly. -/
def tupleEqFrozenset (_e : ℕ × ℕ) (_s : Finset ℕ) : Bool :=
  false

/-- The two accumulators of `_gabriel_graph`: the `removed_edges` list and
the `edges` list (spatial.py lines 80-81). -/
structure BuildState where
  removed_edges : List (Finset ℕ)
  edges : List (Finset ℕ)
deriving DecidableEq

/-- The body of the inner loop of `_gabriel_graph` (spatial.py lines
86-93), processing one `edge` of the current `simplex`:
if the (always-false, see `tupleEqFrozenset`) membership test fails,
append `frozenset(edge)` to `edges`, then for every `neighbor` in
`set(simplex).difference(set(edge))` append `frozenset(edge)` to
`removed_edges` whenever `_inside_midpoint_circle` holds. -/
def processEdge (points : List (Pt α)) (simplex : Simplex)
    (st : BuildState) (edge : ℕ × ℕ) : BuildState :=
  if st.removed_edges.any (fun f => tupleEqFrozenset edge f) then st
  else
    let edges := st.edges ++ [fs edge]
    let edge_point_x := getPoint points edge.1
    let edge_point_y := getPoint points edge.2
    let removed := (oppositeVertices simplex edge).foldl
      (fun r neighbor =>
        if inside_midpoint_circle edge_point_x edge_point_y (getPoint points neighbor)
        then r ++ [fs edge] else r)
      st.removed_edges
    ⟨removed, edges⟩

/-- The outer loop body of `_gabriel_graph` (spatial.py line 85-86):
iterate over the edges of one simplex. -/
def processSimplex (points : List (Pt α)) (st : BuildState) (simplex : Simplex) :
    BuildState :=
  (simplexEdges simplex).foldl (processEdge points simplex) st

/-- The accumulation phase of `_gabriel_graph` (spatial.py lines 80-93):
fold over the simplex list starting from empty accumulators. -/
def gabrielBuild (points : List (Pt α)) (simplices : List Simplex) : BuildState :=
  simplices.foldl (processSimplex points) ⟨[], []⟩

/-- Function `GraphTools._gabriel_graph` (spatial.py lines 76-96):
`set(edges).difference(set(removed_edges))` after the accumulation. -/
def gabrielGraph (points : List (Pt α)) (simplices : List Simplex) :
    Finset (Finset ℕ) :=
  (gabrielBuild points simplices).edges.toFinset \
    (gabrielBuild points simplices).removed_edges.toFinset

/-- A simplex of a valid 2-D triangulation: three pairwise distinct
vertex indices (part of the input contract on the triangulation). -/
def validSimplex (s : Simplex) : Prop :=
  s.1 ≠ s.2.1 ∧ s.1 ≠ s.2.2 ∧ s.2.1 ≠ s.2.2

instance (s : Simplex) : Decidable (validSimplex s) :=
  inferInstanceAs (Decidable (_ ∧ _ ∧ _))

/-- Edge `x` is enumerated as a candidate edge: it is the frozenset of one of
the `combinations(simplex, 2)` pairs of some simplex of the list. -/
def isCandidate (simplices : List Simplex) (x : Finset ℕ) : Prop :=
  ∃ s ∈ simplices, ∃ e ∈ simplexEdges s, fs e = x

/-- Edge `x` is accumulated into `removed_edges`: some simplex enumerates a
pair with frozenset `x` and one of its opposite vertices passes the
inside-diametral-circle test. -/
def isRemoved (points : List (Pt α)) (simplices : List Simplex) (x : Finset ℕ) :
    Prop :=
  ∃ s ∈ simplices, ∃ e ∈ simplexEdges s, fs e = x ∧
    ∃ n ∈ simplexSet s \ fs e,
      inside_midpoint_circle (getPoint points e.1) (getPoint points e.2)
        (getPoint points n) = true

/-- Exceptions that can propagate out of the modelled methods:
`DegenerateInputError` from the triangulation provider on degenerate
points, and Python's `AttributeError` from reading an attribute that was
never assigned. -/
inductive PyError where
  | DegenerateInputError : PyError
  | AttributeError : PyError
deriving DecidableEq

/-- Twice the signed area of the triangle `p q r`: zero iff the three
points are collinear. -/
def cross (p q r : Pt α) : α :=
  (q.1 - p.1) * (r.2 - p.2) - (q.2 - p.2) * (r.1 - p.1)

/-- Every triple of the points is collinear. -/
def allCollinear (points : List (Pt α)) : Bool :=
  points.all fun p => points.all fun q => points.all fun r =>
    decide (cross p q r = 0)

/-- Modelled from the spec: the point set cannot support a valid
triangulation — fewer than 3 points, or all points collinear. -/
def degenerate (points : List (Pt α)) : Bool :=
  decide (points.length < 3) || allCollinear points

/-- Modelled from the spec: the Triangulation Provider
(`scipy.spatial.Delaunay`, called by `GraphTools._delaunay_triangulation`,
spatial.py lines 54-58) is external to this repository.  Per the spec it
`fails with DegenerateInputError when points are fewer than 3 or
collinear` and otherwise returns a simplicial decomposition; the
successful result is represented by the parameter `tri` (the provider's
simplex list for the given points), about which the theorems assume only
what the input contract guarantees.  The Delaunay object is consumed by
the core only through its `simplices` field, so the triangulation is
modelled by that simplex list. -/
def delaunay_triangulation (tri : List (Pt α) → List Simplex)
    (points : List (Pt α)) : Except PyError (List Simplex) :=
  if degenerate points then Except.error PyError.DegenerateInputError
  else Except.ok (tri points)

/-- The mutable attributes of a `GraphTools` object.  A Python attribute
that was never assigned is `none` (reading it raises `AttributeError`). -/
structure GraphState (α μ : Type) where
  points : Option (List (Pt α)) := none
  triangulation : Option (List Simplex) := none
  simplices : Option (List Simplex) := none
  gabriel_edges : Option (Finset (Finset ℕ)) := none
  metric : Option μ := none

/-- Method `GraphTools.__init__` (spatial.py lines 15-21), as a transformer of
the object state returning the possibly raised exception.  Attribute
assignments happen in source order, so when the triangulation provider
raises, `self.points` has already been overwritten while the remaining
assignments (triangulation, simplices, gabriel_edges, metric) are
skipped; with `points is None` the whole `if` block is skipped and only
`self.metric = metric` runs. -/
def GraphTools.init (tri : List (Pt α) → List Simplex) (self : GraphState α μ)
    (points : Option (List (Pt α))) (metric : Option μ) :
    GraphState α μ × Option PyError :=
  match points with
  | some pts =>
    let s1 := { self with points := some pts }
    match delaunay_triangulation tri pts with
    | Except.error e => (s1, some e)
    | Except.ok t =>
      ({ s1 with triangulation := some t
                 simplices := some t
                 gabriel_edges := some (gabrielGraph pts t)
                 metric := metric }, none)
  | none => ({ self with metric := metric }, none)

/-- Method `GraphTools.gabriel_graph` (spatial.py lines 98-106): with new points,
re-run `__init__` (with `metric` at its default `None`) and propagate any
exception; then return `self.gabriel_edges`, raising `AttributeError`
when that attribute was never assigned. -/
def GraphTools.gabriel_graph (tri : List (Pt α) → List Simplex)
    (self : GraphState α μ) (points : Option (List (Pt α))) :
    GraphState α μ × Except PyError (Finset (Finset ℕ)) :=
  match points with
  | some pts =>
    match GraphTools.init tri self (some pts) none with
    | (s1, some e) => (s1, Except.error e)
    | (s1, none) =>
      match s1.gabriel_edges with
      | some g => (s1, Except.ok g)
      | none => (s1, Except.error PyError.AttributeError)
  | none =>
    match self.gabriel_edges with
    | some g => (self, Except.ok g)
    | none => (self, Except.error PyError.AttributeError)

/-- Method `GraphTools.delaunay` (spatial.py lines 60-67): with new points,
re-run `__init__` and propagate any exception; then return
`self.triangulation`, raising `AttributeError` when that attribute was
never assigned. -/
def GraphTools.delaunay (tri : List (Pt α) → List Simplex)
    (self : GraphState α μ) (points : Option (List (Pt α))) :
    GraphState α μ × Except PyError (List Simplex) :=
  match points with
  | some pts =>
    match GraphTools.init tri self (some pts) none with
    | (s1, some e) => (s1, Except.error e)
    | (s1, none) =>
      match s1.triangulation with
      | some t => (s1, Except.ok t)
      | none => (s1, Except.error PyError.AttributeError)
  | none =>
    match self.triangulation with
    | some t => (self, Except.ok t)
    | none => (self, Except.error PyError.AttributeError)

/-- Three is not a perfect square, so `ℤ√3` is a linear ordered commutative
ring with decidable comparisons. -/
instance : Zsqrtd.Nonsquare 3 := by
  constructor
  intro n h
  rcases n with _ | _ | m
  · simp at h
  · simp at h
  · have h4 : 2 * 2 ≤ (m + 2) * (m + 2) :=
      Nat.mul_le_mul (Nat.le_add_left 2 m) (Nat.le_add_left 2 m)
    rw [← h] at h4
    omega

/-- The ring `ℤ[√3]`, used to realise an equilateral triangle exactly
(no equilateral triangle has all-rational coordinates). -/
abbrev Rt3 : Type := ℤ√(3 : ℕ)

/-- The four corners of the unit square, indices 0..3. -/
def sqPoints : List (Pt ℤ) := [(0, 0), (1, 0), (1, 1), (0, 1)]

/-- An equilateral triangle with side length 2 in `ℤ[√3]`. -/
def eqTriPoints : List (Pt Rt3) := [(0, 0), (2, 0), (1, Zsqrtd.sqrtd)]

/-- A triangle with an obtuse angle at vertex 2 = (2,1). -/
def obtTriPoints : List (Pt ℤ) := [(0, 0), (4, 0), (2, 1)]

/-- A concrete triangulation provider for the counterexample scenarios:
returns the single simplex (0,1,2) for any (non-degenerate) input. -/
def triProvider0 : List (Pt ℤ) → List Simplex := fun _ => [(0, 1, 2)]

/-- Three non-collinear points: a valid input. -/
def goodPts : List (Pt ℤ) := [(0, 0), (1, 0), (0, 1)]

/-- Two points: a degenerate input. -/
def badPts : List (Pt ℤ) := [(0, 0), (1, 1)]

/-- The object state after a successful construction from `goodPts`. -/
def stateBeforeRebuild : GraphState ℤ Unit :=
  (GraphTools.init triProvider0 {} (some goodPts) none).1

/-- The state/result of then calling `gabriel_graph` with the degenerate
`badPts`. -/
def failedRebuild : GraphState ℤ Unit × Except PyError (Finset (Finset ℕ)) :=
  GraphTools.gabriel_graph triProvider0 stateBeforeRebuild (some badPts)

theorem any_tupleEqFrozenset (e : ℕ × ℕ) (l : List (Finset ℕ)) :
    l.any (fun f => tupleEqFrozenset e f) = false := by
  simp [tupleEqFrozenset]

theorem mem_oppositeVertices {s : Simplex} {e : ℕ × ℕ} {n : ℕ} :
    n ∈ oppositeVertices s e ↔ n ∈ simplexSet s \ fs e := by
  simp [oppositeVertices, simplexSet, Finset.mem_sdiff, List.mem_filter,
    List.mem_dedup, Finset.mem_insert, Finset.mem_singleton]

theorem mem_foldl_condAppend (p : ℕ → Bool) (v : Finset ℕ) (l : List ℕ)
    (r : List (Finset ℕ)) (x : Finset ℕ) :
    (x ∈ l.foldl (fun r' n => if p n then r' ++ [v] else r') r) ↔
      x ∈ r ∨ (x = v ∧ ∃ n ∈ l, p n = true) := by
  induction l generalizing r with
  | nil => simp
  | cons a l ih =>
    rw [List.foldl_cons]
    by_cases h : p a = true
    · rw [if_pos h, ih]
      constructor
      · rintro (hx | ⟨rfl, n, hn, hpn⟩)
        · rcases List.mem_append.mp hx with hx | hx
          · exact Or.inl hx
          · exact Or.inr ⟨List.mem_singleton.mp hx, a, List.mem_cons_self a l, h⟩
        · exact Or.inr ⟨rfl, n, List.mem_cons_of_mem a hn, hpn⟩
      · rintro (hx | ⟨rfl, n, hn, hpn⟩)
        · exact Or.inl (List.mem_append.mpr (Or.inl hx))
        · exact Or.inl (List.mem_append.mpr (Or.inr (List.mem_singleton.mpr rfl)))
    · rw [if_neg h, ih]
      constructor
      · rintro (hx | ⟨rfl, n, hn, hpn⟩)
        · exact Or.inl hx
        · exact Or.inr ⟨rfl, n, List.mem_cons_of_mem a hn, hpn⟩
      · rintro (hx | ⟨rfl, n, hn, hpn⟩)
        · exact Or.inl hx
        · rcases List.mem_cons.mp hn with rfl | hn
          · exact absurd hpn h
          · exact Or.inr ⟨rfl, n, hn, hpn⟩

theorem processEdge_edges (points : List (Pt α)) (s : Simplex)
    (st : BuildState) (e : ℕ × ℕ) :
    (processEdge points s st e).edges = st.edges ++ [fs e] := by
  simp [processEdge, any_tupleEqFrozenset]

theorem processEdge_removed (points : List (Pt α)) (s : Simplex)
    (st : BuildState) (e : ℕ × ℕ) (x : Finset ℕ) :
    x ∈ (processEdge points s st e).removed_edges ↔
      x ∈ st.removed_edges ∨ (x = fs e ∧ ∃ n ∈ simplexSet s \ fs e,
        inside_midpoint_circle (getPoint points e.1) (getPoint points e.2)
          (getPoint points n) = true) := by
  simp only [processEdge, any_tupleEqFrozenset, Bool.false_eq_true, if_false]
  rw [mem_foldl_condAppend]
  simp [mem_oppositeVertices]

theorem foldl_processEdge_edges (points : List (Pt α)) (s : Simplex)
    (el : List (ℕ × ℕ)) (st : BuildState) :
    (el.foldl (processEdge points s) st).edges = st.edges ++ el.map fs := by
  induction el generalizing st with
  | nil => simp
  | cons e el ih => simp [List.foldl_cons, ih, processEdge_edges]

theorem foldl_processEdge_removed (points : List (Pt α)) (s : Simplex)
    (el : List (ℕ × ℕ)) (st : BuildState) (x : Finset ℕ) :
    x ∈ (el.foldl (processEdge points s) st).removed_edges ↔
      x ∈ st.removed_edges ∨ ∃ e ∈ el, fs e = x ∧ ∃ n ∈ simplexSet s \ fs e,
        inside_midpoint_circle (getPoint points e.1) (getPoint points e.2)
          (getPoint points n) = true := by
  induction el generalizing st with
  | nil => simp
  | cons e el ih =>
    rw [List.foldl_cons, ih, processEdge_removed]
    constructor
    · rintro ((hx | ⟨rfl, hn⟩) | ⟨e', he', hfs, hn⟩)
      · exact Or.inl hx
      · exact Or.inr ⟨e, List.mem_cons_self e el, rfl, hn⟩
      · exact Or.inr ⟨e', List.mem_cons_of_mem e he', hfs, hn⟩
    · rintro (hx | ⟨e', he', hfs, hn⟩)
      · exact Or.inl (Or.inl hx)
      · rcases List.mem_cons.mp he' with rfl | he'
        · exact Or.inl (Or.inr ⟨hfs.symm, hn⟩)
        · exact Or.inr ⟨e', he', hfs, hn⟩

theorem foldl_processSimplex_edges (points : List (Pt α))
    (l : List Simplex) (st : BuildState) (x : Finset ℕ) :
    x ∈ (l.foldl (processSimplex points) st).edges ↔
      x ∈ st.edges ∨ isCandidate l x := by
  induction l generalizing st with
  | nil => simp [isCandidate]
  | cons s l ih =>
    rw [List.foldl_cons, ih]
    unfold processSimplex isCandidate
    rw [foldl_processEdge_edges]
    constructor
    · rintro (hx | ⟨s', hs', e, he, hfs⟩)
      · rcases List.mem_append.mp hx with hx | hx
        · exact Or.inl hx
        · rcases List.mem_map.mp hx with ⟨e, he, hfs⟩
          exact Or.inr ⟨s, List.mem_cons_self s l, e, he, hfs⟩
      · exact Or.inr ⟨s', List.mem_cons_of_mem s hs', e, he, hfs⟩
    · rintro (hx | ⟨s', hs', e, he, hfs⟩)
      · exact Or.inl (List.mem_append.mpr (Or.inl hx))
      · rcases List.mem_cons.mp hs' with rfl | hs'
        · exact Or.inl (List.mem_append.mpr (Or.inr (List.mem_map.mpr ⟨e, he, hfs⟩)))
        · exact Or.inr ⟨s', hs', e, he, hfs⟩

theorem foldl_processSimplex_removed (points : List (Pt α))
    (l : List Simplex) (st : BuildState) (x : Finset ℕ) :
    x ∈ (l.foldl (processSimplex points) st).removed_edges ↔
      x ∈ st.removed_edges ∨ isRemoved points l x := by
  induction l generalizing st with
  | nil => simp [isRemoved]
  | cons s l ih =>
    rw [List.foldl_cons, ih]
    unfold processSimplex isRemoved
    rw [foldl_processEdge_removed]
    constructor
    · rintro ((hx | ⟨e, he, hfs, hn⟩) | ⟨s', hs', e, he, hfs, hn⟩)
      · exact Or.inl hx
      · exact Or.inr ⟨s, List.mem_cons_self s l, e, he, hfs, hn⟩
      · exact Or.inr ⟨s', List.mem_cons_of_mem s hs', e, he, hfs, hn⟩
    · rintro (hx | ⟨s', hs', e, he, hfs, hn⟩)
      · exact Or.inl (Or.inl hx)
      · rcases List.mem_cons.mp hs' with rfl | hs'
        · exact Or.inl (Or.inr ⟨e, he, hfs, hn⟩)
        · exact Or.inr ⟨s', hs', e, he, hfs, hn⟩

theorem mem_gabrielBuild_edges (points : List (Pt α)) (l : List Simplex)
    (x : Finset ℕ) :
    x ∈ (gabrielBuild points l).edges ↔ isCandidate l x := by
  rw [gabrielBuild, foldl_processSimplex_edges]
  simp

theorem mem_gabrielBuild_removed (points : List (Pt α)) (l : List Simplex)
    (x : Finset ℕ) :
    x ∈ (gabrielBuild points l).removed_edges ↔ isRemoved points l x := by
  rw [gabrielBuild, foldl_processSimplex_removed]
  simp

theorem mem_gabrielGraph (points : List (Pt α)) (l : List Simplex)
    (x : Finset ℕ) :
    x ∈ gabrielGraph points l ↔ isCandidate l x ∧ ¬ isRemoved points l x := by
  simp [gabrielGraph, Finset.mem_sdiff, List.mem_toFinset,
    mem_gabrielBuild_edges, mem_gabrielBuild_removed]

theorem sqDist_comm (x y : Pt α) : sqDist x y = sqDist y x := by
  unfold sqDist
  ring

theorem inside_midpoint_circle_symm (x y p : Pt α) :
    inside_midpoint_circle x y p = inside_midpoint_circle y x p := by
  unfold inside_midpoint_circle
  rw [decide_eq_decide, sqDist_comm x y, add_comm (sqDist x p)]

theorem fs_def (e : ℕ × ℕ) : fs e = {e.1, e.2} :=
  rfl

theorem pair_eq_pair_iff {u v a b : ℕ} (huv : u ≠ v) :
    ({u, v} : Finset ℕ) = {a, b} ↔ (u = a ∧ v = b) ∨ (u = b ∧ v = a) := by
  constructor
  · intro h
    have hu : u ∈ ({a, b} : Finset ℕ) := by rw [← h]; simp
    have hv : v ∈ ({a, b} : Finset ℕ) := by rw [← h]; simp
    simp only [Finset.mem_insert, Finset.mem_singleton] at hu hv
    rcases hu with rfl | rfl <;> rcases hv with rfl | rfl
    · exact absurd rfl huv
    · exact Or.inl ⟨rfl, rfl⟩
    · exact Or.inr ⟨rfl, rfl⟩
    · exact absurd rfl huv
  · rintro (⟨rfl, rfl⟩ | ⟨rfl, rfl⟩)
    · rfl
    · exact Finset.pair_comm u v

theorem mem_simplexEdges {s : Simplex} {e : ℕ × ℕ} :
    e ∈ simplexEdges s ↔ e = (s.1, s.2.1) ∨ e = (s.1, s.2.2) ∨ e = (s.2.1, s.2.2) := by
  simp [simplexEdges]

theorem fs_subset_simplexSet {s : Simplex} {e : ℕ × ℕ}
    (he : e ∈ simplexEdges s) : fs e ⊆ simplexSet s := by
  rcases mem_simplexEdges.mp he with rfl | rfl | rfl <;>
    simp [fs, simplexSet, Finset.insert_subset_iff]

theorem edge_endpoints_ne {s : Simplex} (hval : validSimplex s) {e : ℕ × ℕ}
    (he : e ∈ simplexEdges s) : e.1 ≠ e.2 := by
  obtain ⟨h1, h2, h3⟩ := hval
  rcases mem_simplexEdges.mp he with rfl | rfl | rfl <;> assumption

theorem exists_edge_pair {s : Simplex} (hval : validSimplex s) {a b : ℕ}
    (hab : a ≠ b) :
    (∃ e ∈ simplexEdges s, fs e = {a, b}) ↔
      a ∈ simplexSet s ∧ b ∈ simplexSet s := by
  constructor
  · rintro ⟨e, he, hfs⟩
    have ha : a ∈ fs e := by rw [hfs]; simp
    have hb : b ∈ fs e := by rw [hfs]; simp
    exact ⟨fs_subset_simplexSet he ha, fs_subset_simplexSet he hb⟩
  · rintro ⟨ha, hb⟩
    obtain ⟨u, v, w⟩ := s
    obtain ⟨h1, h2, h3⟩ := hval
    simp only [simplexSet, Finset.mem_insert, Finset.mem_singleton] at ha hb
    rcases ha with rfl | rfl | rfl <;> rcases hb with rfl | rfl | rfl
    · exact absurd rfl hab
    · exact ⟨(a, b), by simp [simplexEdges], rfl⟩
    · exact ⟨(a, b), by simp [simplexEdges], rfl⟩
    · exact ⟨(b, a), by simp [simplexEdges], Finset.pair_comm b a⟩
    · exact absurd rfl hab
    · exact ⟨(a, b), by simp [simplexEdges], rfl⟩
    · exact ⟨(b, a), by simp [simplexEdges], Finset.pair_comm b a⟩
    · exact ⟨(b, a), by simp [simplexEdges], Finset.pair_comm b a⟩
    · exact absurd rfl hab

theorem inside_fs_congr {points : List (Pt α)} {e : ℕ × ℕ} {a b : ℕ}
    (hne : e.1 ≠ e.2) (hfs : fs e = {a, b}) (c : ℕ) :
    inside_midpoint_circle (getPoint points e.1) (getPoint points e.2)
        (getPoint points c) =
      inside_midpoint_circle (getPoint points a) (getPoint points b)
        (getPoint points c) := by
  rw [fs_def] at hfs
  rcases (pair_eq_pair_iff hne).mp hfs with ⟨h1, h2⟩ | ⟨h1, h2⟩
  · rw [h1, h2]
  · rw [h1, h2]
    exact inside_midpoint_circle_symm _ _ _

theorem isCandidate_pair_iff {simplices : List Simplex}
    (hval : ∀ s ∈ simplices, validSimplex s) {a b : ℕ} (hab : a ≠ b) :
    isCandidate simplices {a, b} ↔
      ∃ s ∈ simplices, a ∈ simplexSet s ∧ b ∈ simplexSet s := by
  unfold isCandidate
  constructor
  · rintro ⟨s, hs, h⟩
    exact ⟨s, hs, (exists_edge_pair (hval s hs) hab).mp h⟩
  · rintro ⟨s, hs, h⟩
    exact ⟨s, hs, (exists_edge_pair (hval s hs) hab).mpr h⟩

theorem isRemoved_pair_iff {points : List (Pt α)} {simplices : List Simplex}
    (hval : ∀ s ∈ simplices, validSimplex s) {a b : ℕ} (hab : a ≠ b) :
    isRemoved points simplices {a, b} ↔
      ∃ s ∈ simplices, a ∈ simplexSet s ∧ b ∈ simplexSet s ∧
        ∃ c ∈ simplexSet s \ ({a, b} : Finset ℕ),
          inside_midpoint_circle (getPoint points a) (getPoint points b)
            (getPoint points c) = true := by
  unfold isRemoved
  constructor
  · rintro ⟨s, hs, e, he, hfs, n, hn, hins⟩
    have hne := edge_endpoints_ne (hval s hs) he
    have hsub := fs_subset_simplexSet he
    refine ⟨s, hs, hsub (by rw [hfs]; simp), hsub (by rw [hfs]; simp), n, ?_, ?_⟩
    · rwa [hfs] at hn
    · rwa [inside_fs_congr hne hfs] at hins
  · rintro ⟨s, hs, ha, hb, c, hc, hins⟩
    obtain ⟨e, he, hfs⟩ := (exists_edge_pair (hval s hs) hab).mpr ⟨ha, hb⟩
    have hne := edge_endpoints_ne (hval s hs) he
    refine ⟨s, hs, e, he, hfs, c, ?_, ?_⟩
    · rwa [hfs]
    · rwa [inside_fs_congr hne hfs]

/-- C1: for every point set and every triangulation satisfying the input
contract (each simplex has pairwise distinct vertices), the Gabriel
builder returns exactly the unordered edges of a and b (a distinct from b)
such that the pair occurs in at least one simplex and, for every simplex
containing both a and b, the remaining (opposite) vertices do not lie
strictly inside the circle whose diameter is the segment from point a to
point b (the strict inequality of squared distances). -/
theorem gabriel_graph_correct (points : List (Pt α)) (simplices : List Simplex)
    (hval : ∀ s ∈ simplices, validSimplex s) :
    (∀ x ∈ gabrielGraph points simplices, ∃ a b : ℕ, a ≠ b ∧ x = {a, b}) ∧
      ∀ a b : ℕ, a ≠ b →
        (({a, b} : Finset ℕ) ∈ gabrielGraph points simplices ↔
          ((∃ s ∈ simplices, a ∈ simplexSet s ∧ b ∈ simplexSet s) ∧
            ∀ s ∈ simplices, a ∈ simplexSet s → b ∈ simplexSet s →
              ∀ c ∈ simplexSet s \ ({a, b} : Finset ℕ),
                ¬ (sqDist (getPoint points a) (getPoint points b) >
                    sqDist (getPoint points a) (getPoint points c) +
                      sqDist (getPoint points b) (getPoint points c)))) := by
  constructor
  · intro x hx
    rw [mem_gabrielGraph] at hx
    obtain ⟨hcand, -⟩ := hx
    unfold isCandidate at hcand
    obtain ⟨s, hs, e, he, hfs⟩ := hcand
    exact ⟨e.1, e.2, edge_endpoints_ne (hval s hs) he, hfs ▸ (fs_def e).symm⟩
  · intro a b hab
    rw [mem_gabrielGraph, isCandidate_pair_iff hval hab,
      isRemoved_pair_iff hval hab]
    apply and_congr_right'
    simp only [inside_midpoint_circle, decide_eq_true_eq, not_exists, not_and]

/-- Witness for C1 at the obtuse triangle: edge 0-2 is a Gabriel edge and
the characterisation instantiates. -/
theorem gabriel_graph_correct_witness :
    (∀ s ∈ ([(0, 1, 2)] : List Simplex), validSimplex s) ∧ (0 : ℕ) ≠ 2 ∧
      (({0, 2} : Finset ℕ) ∈ gabrielGraph obtTriPoints [(0, 1, 2)] ↔
        ((∃ s ∈ ([(0, 1, 2)] : List Simplex),
            0 ∈ simplexSet s ∧ 2 ∈ simplexSet s) ∧
          ∀ s ∈ ([(0, 1, 2)] : List Simplex),
            0 ∈ simplexSet s → 2 ∈ simplexSet s →
              ∀ c ∈ simplexSet s \ ({0, 2} : Finset ℕ),
                ¬ (sqDist (getPoint obtTriPoints 0) (getPoint obtTriPoints 2) >
                    sqDist (getPoint obtTriPoints 0) (getPoint obtTriPoints c) +
                      sqDist (getPoint obtTriPoints 2) (getPoint obtTriPoints c)))) :=
  ⟨by decide, by decide,
    (gabriel_graph_correct obtTriPoints [(0, 1, 2)] (by decide)).2 0 2 (by decide)⟩

/-- C2: the inside-diametral-circle predicate returns true iff the squared
diameter strictly exceeds the sum of the squared distances to the two
endpoints, and returns false when the two sides are exactly equal (the
boundary tie case). -/
theorem inside_midpoint_circle_spec (x y p : Pt α) :
    (inside_midpoint_circle x y p = true ↔
      sqDist x y > sqDist x p + sqDist y p) ∧
    (sqDist x y = sqDist x p + sqDist y p →
      inside_midpoint_circle x y p = false) := by
  constructor
  · exact decide_eq_true_iff
  · intro h
    simp [inside_midpoint_circle, h]

/-- Witness for C2 at a tie configuration: (1,1) lies exactly on the
circle with diameter from (0,0) to (2,0). -/
theorem inside_midpoint_circle_spec_witness :
    sqDist ((0 : ℤ), (0 : ℤ)) (2, 0) = sqDist (0, 0) (1, 1) + sqDist (2, 0) (1, 1) ∧
      inside_midpoint_circle ((0 : ℤ), (0 : ℤ)) (2, 0) (1, 1) = false :=
  ⟨by decide, (inside_midpoint_circle_spec ((0 : ℤ), (0 : ℤ)) (2, 0) (1, 1)).2 (by decide)⟩

/-- C3: the Gabriel edge set is invariant under any permutation of the
simplex list. -/
theorem gabrielGraph_order_independent (points : List (Pt α))
    {l l' : List Simplex} (h : l.Perm l') :
    gabrielGraph points l = gabrielGraph points l' := by
  ext x
  rw [mem_gabrielGraph, mem_gabrielGraph]
  have hc : isCandidate l x ↔ isCandidate l' x := by
    unfold isCandidate
    constructor
    · rintro ⟨s, hs, hrest⟩
      exact ⟨s, h.mem_iff.mp hs, hrest⟩
    · rintro ⟨s, hs, hrest⟩
      exact ⟨s, h.mem_iff.mpr hs, hrest⟩
  have hr : isRemoved points l x ↔ isRemoved points l' x := by
    unfold isRemoved
    constructor
    · rintro ⟨s, hs, hrest⟩
      exact ⟨s, h.mem_iff.mp hs, hrest⟩
    · rintro ⟨s, hs, hrest⟩
      exact ⟨s, h.mem_iff.mpr hs, hrest⟩
  rw [hc, hr]

/-- Witness for C3: swapping the two simplices of the square triangulation
leaves the Gabriel edge set unchanged. -/
theorem gabrielGraph_order_independent_witness :
    ([(0, 1, 2), (0, 2, 3)] : List Simplex).Perm [(0, 2, 3), (0, 1, 2)] ∧
      gabrielGraph sqPoints [(0, 1, 2), (0, 2, 3)] =
        gabrielGraph sqPoints [(0, 2, 3), (0, 1, 2)] :=
  ⟨by decide, gabrielGraph_order_independent sqPoints (by decide)⟩

/-- C4: every returned Gabriel edge is a 2-element subset of some simplex
of the triangulation it was built from. -/
theorem gabriel_subgraph_delaunay (points : List (Pt α))
    (simplices : List Simplex) (hval : ∀ s ∈ simplices, validSimplex s)
    (x : Finset ℕ) (hx : x ∈ gabrielGraph points simplices) :
    ∃ s ∈ simplices, x ⊆ simplexSet s ∧ x.card = 2 := by
  rw [mem_gabrielGraph] at hx
  obtain ⟨hcand, -⟩ := hx
  unfold isCandidate at hcand
  obtain ⟨s, hs, e, he, hfs⟩ := hcand
  refine ⟨s, hs, ?_, ?_⟩
  · rw [← hfs]
    exact fs_subset_simplexSet he
  · rw [← hfs, fs_def]
    exact Finset.card_pair (edge_endpoints_ne (hval s hs) he)

/-- Witness for C4: the side 0-1 of the square is a Gabriel edge and is a
2-element subset of a simplex. -/
theorem gabriel_subgraph_delaunay_witness :
    (∀ s ∈ ([(0, 1, 2), (0, 2, 3)] : List Simplex), validSimplex s) ∧
      ({0, 1} : Finset ℕ) ∈ gabrielGraph sqPoints [(0, 1, 2), (0, 2, 3)] ∧
      ∃ s ∈ ([(0, 1, 2), (0, 2, 3)] : List Simplex),
        ({0, 1} : Finset ℕ) ⊆ simplexSet s ∧ ({0, 1} : Finset ℕ).card = 2 :=
  ⟨by decide, by decide,
    gabriel_subgraph_delaunay sqPoints [(0, 1, 2), (0, 2, 3)] (by decide)
      {0, 1} (by decide)⟩

theorem sqDist_nonneg (x y : Pt α) : 0 ≤ sqDist x y :=
  add_nonneg (sq_nonneg _) (sq_nonneg _)

theorem degenerate_of (pts : List (Pt α))
    (h : pts.length < 3 ∨ allCollinear pts = true) : degenerate pts = true := by
  unfold degenerate
  rcases h with h | h
  · simp [h]
  · simp [h]

theorem init_degenerate_eq {μ : Type} (tri : List (Pt α) → List Simplex)
    (self : GraphState α μ) (pts : List (Pt α)) (m : Option μ)
    (hdeg : degenerate pts = true) :
    GraphTools.init tri self (some pts) m =
      ({ self with points := some pts }, some PyError.DegenerateInputError) := by
  simp [GraphTools.init, delaunay_triangulation, hdeg]

theorem gabriel_graph_degenerate_eq {μ : Type} (tri : List (Pt α) → List Simplex)
    (self : GraphState α μ) (pts : List (Pt α))
    (hdeg : degenerate pts = true) :
    GraphTools.gabriel_graph tri self (some pts) =
      ({ self with points := some pts },
        Except.error PyError.DegenerateInputError) := by
  simp [GraphTools.gabriel_graph, init_degenerate_eq tri self pts none hdeg]

theorem delaunay_degenerate_eq {μ : Type} (tri : List (Pt α) → List Simplex)
    (self : GraphState α μ) (pts : List (Pt α))
    (hdeg : degenerate pts = true) :
    GraphTools.delaunay tri self (some pts) =
      ({ self with points := some pts },
        Except.error PyError.DegenerateInputError) := by
  simp [GraphTools.delaunay, init_degenerate_eq tri self pts none hdeg]

/-- C5: for the four corners of the unit square, no edge of either
possible triangulation is removed by the Gabriel filter: the four sides
and the diagonal present in the simplices all survive (the opposite
corners lie exactly on the diagonal's diametral circle and the strict
inequality does not count boundary points as inside). -/
theorem square_tie_case :
    gabrielGraph sqPoints [(0, 1, 2), (0, 2, 3)] =
      {({0, 1} : Finset ℕ), {1, 2}, {0, 2}, {0, 3}, {2, 3}} ∧
    gabrielGraph sqPoints [(0, 1, 3), (1, 2, 3)] =
      {({0, 1} : Finset ℕ), {1, 2}, {2, 3}, {0, 3}, {1, 3}} := by
  decide

/-- C6: for fewer than 3 points or 3-or-more collinear points, construction
fails with DegenerateInputError, the error propagates unchanged through the
query methods, and no edge set is produced (the gabriel_edges attribute is
left exactly as before). -/
theorem degenerate_input_fails {μ : Type} (tri : List (Pt α) → List Simplex)
    (self : GraphState α μ) (pts : List (Pt α)) (m : Option μ)
    (h : pts.length < 3 ∨ allCollinear pts = true) :
    (GraphTools.init tri self (some pts) m).2 =
        some PyError.DegenerateInputError ∧
      ((GraphTools.init tri self (some pts) m).1).gabriel_edges =
        self.gabriel_edges ∧
      (GraphTools.gabriel_graph tri self (some pts)).2 =
        Except.error PyError.DegenerateInputError ∧
      (GraphTools.delaunay tri self (some pts)).2 =
        Except.error PyError.DegenerateInputError := by
  have hdeg := degenerate_of pts h
  rw [init_degenerate_eq tri self pts m hdeg,
    gabriel_graph_degenerate_eq tri self pts hdeg,
    delaunay_degenerate_eq tri self pts hdeg]
  exact ⟨rfl, rfl, rfl, rfl⟩

/-- Witness for C6: two points, and three collinear points. -/
theorem degenerate_input_fails_witness :
    (badPts.length < 3 ∨ allCollinear badPts = true) ∧
      (([(0, 0), (1, 1), (2, 2)] : List (Pt ℤ)).length < 3 ∨
        allCollinear ([(0, 0), (1, 1), (2, 2)] : List (Pt ℤ)) = true) ∧
      (GraphTools.init triProvider0 ({} : GraphState ℤ Unit) (some badPts)
          none).2 = some PyError.DegenerateInputError ∧
      (GraphTools.gabriel_graph triProvider0 ({} : GraphState ℤ Unit)
          (some [(0, 0), (1, 1), (2, 2)])).2 =
        Except.error PyError.DegenerateInputError :=
  ⟨by decide, by decide,
    (degenerate_input_fails triProvider0 {} badPts none (by decide)).1,
    (degenerate_input_fails triProvider0 {} [(0, 0), (1, 1), (2, 2)] none
      (by decide)).2.2.1⟩

/-- C7 counterexample: after a successful build from goodPts, a
recomputation with the degenerate badPts raises, and the resulting object
state has diverged fields: points already holds the new input while
triangulation, simplices and gabriel_edges still hold the old state, so
the fields are NOT the consistent unit from before the call. -/
theorem rebuild_divergence_counterexample :
    failedRebuild.2 = Except.error PyError.DegenerateInputError ∧
      stateBeforeRebuild.points = some goodPts ∧
      failedRebuild.1.points = some badPts ∧
      failedRebuild.1.points ≠ stateBeforeRebuild.points ∧
      failedRebuild.1.triangulation = stateBeforeRebuild.triangulation ∧
      failedRebuild.1.gabriel_edges = stateBeforeRebuild.gabriel_edges ∧
      failedRebuild.1.gabriel_edges ≠ none :=
  ⟨rfl, rfl, rfl, by decide, rfl, rfl, by decide⟩

/-- C7 amended: when recomputation with a new point set fails on
degenerate input, no edge set is returned and the cached triangulation,
simplices, Gabriel edge set and metric remain those from before the call;
however the points field has already been overwritten with the new input
(the source assigns self.points before computing the triangulation), so
the points field diverges from the rest of the cached unit. -/
theorem rebuild_failure_state {μ : Type} (tri : List (Pt α) → List Simplex)
    (self : GraphState α μ) (pts : List (Pt α))
    (hdeg : degenerate pts = true) :
    (GraphTools.gabriel_graph tri self (some pts)).2 =
        Except.error PyError.DegenerateInputError ∧
      ((GraphTools.gabriel_graph tri self (some pts)).1).triangulation =
        self.triangulation ∧
      ((GraphTools.gabriel_graph tri self (some pts)).1).simplices =
        self.simplices ∧
      ((GraphTools.gabriel_graph tri self (some pts)).1).gabriel_edges =
        self.gabriel_edges ∧
      ((GraphTools.gabriel_graph tri self (some pts)).1).metric =
        self.metric ∧
      ((GraphTools.gabriel_graph tri self (some pts)).1).points = some pts := by
  rw [gabriel_graph_degenerate_eq tri self pts hdeg]
  exact ⟨rfl, rfl, rfl, rfl, rfl, rfl⟩

/-- Witness for C7 (amended) at the concrete failed rebuild. -/
theorem rebuild_failure_state_witness :
    degenerate badPts = true ∧
      (GraphTools.gabriel_graph triProvider0 stateBeforeRebuild
          (some badPts)).2 = Except.error PyError.DegenerateInputError :=
  ⟨by decide,
    (rebuild_failure_state triProvider0 stateBeforeRebuild badPts (by decide)).1⟩

/-- C8 counterexample: constructing GraphTools with no points raises no
error at all (it silently succeeds, leaving the graph attributes unset),
and a later gabriel_graph query on that object fails with AttributeError,
an unrelated error — not any fail-fast invalid-argument error. -/
theorem missing_points_counterexample :
    (GraphTools.init triProvider0 ({} : GraphState ℤ Unit) none none).2 =
        none ∧
      (GraphTools.init triProvider0 ({} : GraphState ℤ Unit) none
          none).1.gabriel_edges = none ∧
      (GraphTools.gabriel_graph triProvider0
          ((GraphTools.init triProvider0 ({} : GraphState ℤ Unit) none
            none).1) none).2 = Except.error PyError.AttributeError :=
  ⟨rfl, rfl, rfl⟩

/-- C8 amended: constructing the builder with no points succeeds silently
— only the metric attribute is assigned and no error is raised — and
querying the Gabriel graph or the triangulation with no points supplied
and no cached state fails with AttributeError (reading a never-assigned
attribute), not with a fail-fast invalid-argument error. -/
theorem missing_points_behavior {μ : Type} (tri : List (Pt α) → List Simplex)
    (self : GraphState α μ) (m : Option μ) :
    GraphTools.init tri self none m = ({ self with metric := m }, none) ∧
      (self.gabriel_edges = none →
        GraphTools.gabriel_graph tri self none =
          (self, Except.error PyError.AttributeError)) ∧
      (self.triangulation = none →
        GraphTools.delaunay tri self none =
          (self, Except.error PyError.AttributeError)) := by
  refine ⟨rfl, ?_, ?_⟩
  · intro h
    unfold GraphTools.gabriel_graph
    rw [h]
  · intro h
    unfold GraphTools.delaunay
    rw [h]

/-- Witness for C8 (amended) on a freshly constructed empty object. -/
theorem missing_points_behavior_witness :
    ({} : GraphState ℤ Unit).gabriel_edges = none ∧
      GraphTools.gabriel_graph triProvider0 ({} : GraphState ℤ Unit) none =
        ({}, Except.error PyError.AttributeError) :=
  ⟨rfl, (missing_points_behavior triProvider0 {} none).2.1 rfl⟩

/-- C10: the metric argument is stored but never read by any distance
computation, so two constructions from the same points with different
metrics produce identical Gabriel edge sets. -/
theorem metric_not_consulted {μ : Type} (tri : List (Pt α) → List Simplex)
    (pts : List (Pt α)) (m1 m2 : Option μ) :
    ((GraphTools.init tri ({} : GraphState α μ) (some pts) m1).1).gabriel_edges =
      ((GraphTools.init tri ({} : GraphState α μ) (some pts) m2).1).gabriel_edges := by
  rcases h : delaunay_triangulation tri pts with e | t
  · simp [GraphTools.init, h]
  · simp [GraphTools.init, h]

/-- C9: on the single simplex of three distinct vertices the builder
enumerates exactly 3 candidate edges; if the squared side ab strictly
exceeds the sum of the squared sides to c (obtuse angle at c), the edge ab
is not in the Gabriel edge set; and if all three squared sides are equal
(equilateral triangle) the Gabriel edge set is all three edges. -/
theorem three_point_triangle (points : List (Pt α)) (a b c : ℕ)
    (hab : a ≠ b) (hac : a ≠ c) (hbc : b ≠ c) :
    ((gabrielBuild points [(a, b, c)]).edges =
        [{a, b}, {a, c}, {b, c}] ∧
      (gabrielBuild points [(a, b, c)]).edges.length = 3 ∧
      ((gabrielBuild points [(a, b, c)]).edges.toFinset).card = 3) ∧
    (sqDist (getPoint points a) (getPoint points b) >
        sqDist (getPoint points a) (getPoint points c) +
          sqDist (getPoint points b) (getPoint points c) →
      ({a, b} : Finset ℕ) ∉ gabrielGraph points [(a, b, c)]) ∧
    (sqDist (getPoint points a) (getPoint points b) =
        sqDist (getPoint points a) (getPoint points c) →
      sqDist (getPoint points a) (getPoint points b) =
        sqDist (getPoint points b) (getPoint points c) →
      gabrielGraph points [(a, b, c)] =
        {({a, b} : Finset ℕ), {a, c}, {b, c}}) := by
  have h12 : ({a, b} : Finset ℕ) ≠ {a, c} := by
    intro h
    rcases (pair_eq_pair_iff hab).mp h with ⟨-, h2⟩ | ⟨-, h2⟩
    · exact hbc h2
    · exact hab h2.symm
  have h13 : ({a, b} : Finset ℕ) ≠ {b, c} := by
    intro h
    rcases (pair_eq_pair_iff hab).mp h with ⟨h1, -⟩ | ⟨h1, -⟩
    · exact hab h1
    · exact hac h1
  have h23 : ({a, c} : Finset ℕ) ≠ {b, c} := by
    intro h
    rcases (pair_eq_pair_iff hac).mp h with ⟨h1, -⟩ | ⟨h1, -⟩
    · exact hab h1
    · exact hac h1
  have hedges : (gabrielBuild points [(a, b, c)]).edges =
      [{a, b}, {a, c}, {b, c}] := by
    unfold gabrielBuild
    rw [List.foldl_cons, List.foldl_nil]
    unfold processSimplex
    rw [foldl_processEdge_edges]
    rfl
  refine ⟨⟨hedges, by rw [hedges]; rfl, ?_⟩, ?_, ?_⟩
  · rw [hedges]
    simp only [List.toFinset_cons, List.toFinset_nil, insert_emptyc_eq]
    rw [Finset.card_insert_of_not_mem (by simp [h12, h13]),
      Finset.card_insert_of_not_mem (by simp [h23]),
      Finset.card_singleton]
  · intro hgt hmem
    rw [mem_gabrielGraph] at hmem
    obtain ⟨-, hrem⟩ := hmem
    apply hrem
    unfold isRemoved
    refine ⟨(a, b, c), by simp, (a, b), by simp [simplexEdges], rfl, c, ?_, ?_⟩
    · rw [Finset.mem_sdiff]
      refine ⟨by simp [simplexSet], ?_⟩
      rw [fs_def]
      simp only [Finset.mem_insert, Finset.mem_singleton]
      rintro (rfl | rfl)
      · exact hac rfl
      · exact hbc rfl
    · exact decide_eq_true hgt
  · intro h1 h2
    have hnot : ∀ e ∈ simplexEdges (a, b, c), ∀ n, n ∈ simplexSet (a, b, c) →
        n ∉ fs e →
        inside_midpoint_circle (getPoint points e.1) (getPoint points e.2)
          (getPoint points n) = false := by
      intro e he n hn1 hn2
      have hd := sqDist_nonneg (getPoint points a) (getPoint points b)
      simp only [simplexSet, Finset.mem_insert, Finset.mem_singleton] at hn1
      rcases mem_simplexEdges.mp he with rfl | rfl | rfl <;>
        rw [fs_def] at hn2 <;>
        simp only [Finset.mem_insert, Finset.mem_singleton, not_or] at hn2
      · -- e = (a, b), so n = c
        obtain ⟨hna, hnb⟩ := hn2
        have hnc : n = c := by
          rcases hn1 with h | h | h
          · exact absurd h hna
          · exact absurd h hnb
          · exact h
        rw [hnc]
        apply decide_eq_false
        intro hcontra
        linarith
      · -- e = (a, c), so n = b
        obtain ⟨hna, hnc⟩ := hn2
        have hnb : n = b := by
          rcases hn1 with h | h | h
          · exact absurd h hna
          · exact h
          · exact absurd h hnc
        rw [hnb]
        apply decide_eq_false
        intro hcontra
        have hc := sqDist_comm (getPoint points c) (getPoint points b)
        linarith
      · -- e = (b, c), so n = a
        obtain ⟨hnb, hnc⟩ := hn2
        have hna : n = a := by
          rcases hn1 with h | h | h
          · exact h
          · exact absurd h hnb
          · exact absurd h hnc
        rw [hna]
        apply decide_eq_false
        intro hcontra
        have hc1 := sqDist_comm (getPoint points b) (getPoint points a)
        have hc2 := sqDist_comm (getPoint points c) (getPoint points a)
        linarith
    ext x
    rw [mem_gabrielGraph]
    constructor
    · rintro ⟨hcand, -⟩
      unfold isCandidate at hcand
      obtain ⟨s, hs, e, he, hfs⟩ := hcand
      simp only [List.mem_singleton] at hs
      subst hs
      rcases mem_simplexEdges.mp he with rfl | rfl | rfl <;>
        rw [← hfs] <;> simp [fs_def]
    · intro hx
      constructor
      · unfold isCandidate
        simp only [Finset.mem_insert, Finset.mem_singleton] at hx
        rcases hx with rfl | rfl | rfl
        · exact ⟨(a, b, c), by simp, (a, b), by simp [simplexEdges], rfl⟩
        · exact ⟨(a, b, c), by simp, (a, c), by simp [simplexEdges], rfl⟩
        · exact ⟨(a, b, c), by simp, (b, c), by simp [simplexEdges], rfl⟩
      · rintro ⟨s, hs, e, he, hfs, n, hn, hins⟩
        simp only [List.mem_singleton] at hs
        subst hs
        rw [Finset.mem_sdiff] at hn
        rw [hnot e he n hn.1 hn.2] at hins
        exact absurd hins (by decide)

/-- Witness for C9: the obtuse triangle (over ℤ) loses the edge opposite
its obtuse vertex, and the equilateral triangle (over ℤ√3) keeps all
three edges; both instantiate the general theorem. -/
theorem three_point_triangle_witness :
    ((0 : ℕ) ≠ 1 ∧ (0 : ℕ) ≠ 2 ∧ (1 : ℕ) ≠ 2) ∧
      (gabrielBuild obtTriPoints [(0, 1, 2)]).edges =
        [{0, 1}, {0, 2}, {1, 2}] ∧
      (sqDist (getPoint obtTriPoints 0) (getPoint obtTriPoints 1) >
        sqDist (getPoint obtTriPoints 0) (getPoint obtTriPoints 2) +
          sqDist (getPoint obtTriPoints 1) (getPoint obtTriPoints 2)) ∧
      ({0, 1} : Finset ℕ) ∉ gabrielGraph obtTriPoints [(0, 1, 2)] ∧
      (sqDist (getPoint eqTriPoints 0) (getPoint eqTriPoints 1) =
        sqDist (getPoint eqTriPoints 0) (getPoint eqTriPoints 2)) ∧
      (sqDist (getPoint eqTriPoints 0) (getPoint eqTriPoints 1) =
        sqDist (getPoint eqTriPoints 1) (getPoint eqTriPoints 2)) ∧
      gabrielGraph eqTriPoints [(0, 1, 2)] =
        {({0, 1} : Finset ℕ), {0, 2}, {1, 2}} :=
  ⟨⟨by decide, by decide, by decide⟩,
    (three_point_triangle obtTriPoints 0 1 2 (by decide) (by decide)
      (by decide)).1.1,
    by decide,
    (three_point_triangle obtTriPoints 0 1 2 (by decide) (by decide)
      (by decide)).2.1 (by decide),
    by decide,
    by decide,
    (three_point_triangle eqTriPoints 0 1 2 (by decide) (by decide)
      (by decide)).2.2 (by decide) (by decide)⟩

end Spatial
